import Mathlib

/-!
Shallow embedding of the core logic of `src/index.tsx` (a bulk image-generation
web app): the error classifier (`handleApiError`), the capacity-probing session
store (`handleGenerationComplete`), the prompt-to-image index (`promptImageMap`),
the single-scene regeneration handler (`handleRegenerateScene`), and the bulk
generation pipeline (`generateImages`).  Network calls are modelled by outcome
oracles; `localStorage` quota behaviour by a probe function on candidate values.
-/

namespace BulkGen

/-- Mirrors the `Scene` interface of `src/index.tsx` (lines 7-13). -/
structure Scene where
  id : Nat
  prompt : String
  image : Option String
  isLoading : Bool
  error : Option String
  deriving Repr, DecidableEq, Inhabited

/-- Mirrors the `PromptEntry` interface of `src/index.tsx` (lines 15-19). -/
structure PromptEntry where
  id : String
  text : String
  timestamp : String
  deriving Repr, DecidableEq, Inhabited

/-- Mirrors the `Session` interface of `src/index.tsx` (lines 21-26). -/
structure Session where
  id : String
  timestamp : String
  script : String
  scenes : List Scene
  deriving Repr, DecidableEq, Inhabited

/-- Substring test on character lists: does `needle` occur contiguously? -/
def charsContain (needle : List Char) : List Char → Bool
  | [] => needle.isEmpty
  | c :: rest => needle.isPrefixOf (c :: rest) || charsContain needle rest

/-- JavaScript `String.prototype.includes`. -/
def strIncludes (hay needle : String) : Bool :=
  charsContain needle.data hay.data

/-- JavaScript `String.prototype.toLowerCase` (character-wise lowering). -/
def strLower (s : String) : String :=
  ⟨s.data.map Char.toLower⟩

/-- The text JavaScript would interpolate for `e.message` (an absent message
prints as `undefined`). -/
def msgText : Option String → String
  | none => "undefined"
  | some s => s

/-- The user-facing message computed by `handleApiError` in `src/index.tsx`
(lines 211-220): lower-case the failure's message (empty if absent) and pick
the message by substring matches. -/
def handleApiError (msg : Option String) : String :=
  let m := strLower (msg.getD "")
  if strIncludes m "permission denied" || strIncludes m "api key not valid" then
    "The configured API key is invalid or has been blocked."
  else if strIncludes m "quota" then
    "The API key has exceeded its quota."
  else
    "An API error occurred: " ++ msgText msg

/-- The spec's error taxonomy for service-call failures (spec section 4.1). -/
inductive ErrorKind where
  | invalidCredential
  | quotaExceeded
  | transient
  deriving Repr, DecidableEq

/-- Modelled from the spec: `ErrorClassifier.classify` — case-insensitive
substring match on the failure's message: "permission denied" or
"api key not valid" gives `invalidCredential`; otherwise "quota" gives
`quotaExceeded`; otherwise `transient`.  Total, pure. -/
def classify (msg : Option String) : ErrorKind :=
  let m := strLower (msg.getD "")
  if strIncludes m "permission denied" || strIncludes m "api key not valid" then
    ErrorKind.invalidCredential
  else if strIncludes m "quota" then
    ErrorKind.quotaExceeded
  else
    ErrorKind.transient

/-- The user-facing message each `ErrorKind` produces in `src/index.tsx`. -/
def userMessageFor (k : ErrorKind) (msg : Option String) : String :=
  match k with
  | ErrorKind.invalidCredential => "The configured API key is invalid or has been blocked."
  | ErrorKind.quotaExceeded => "The API key has exceeded its quota."
  | ErrorKind.transient => "An API error occurred: " ++ msgText msg

/-- Result of one speculative capacity probe of `localStorage` (the
`try { setItem(probeKey, …) } catch` at `src/index.tsx` lines 754-769):
the write fits, fails with a quota-exceeded condition, or fails otherwise. -/
inductive ProbeResult where
  | ok
  | quotaExceeded
  | otherError
  deriving Repr, DecidableEq

/-- The probe-and-evict `while` loop of `handleGenerationComplete`
(`src/index.tsx` lines 753-770): probe the serialized candidate; on success
commit it; on a quota failure with more than one session in the candidate,
`shift()` the oldest (index 0) and retry; otherwise abort with no result. -/
def evictLoop (probe : List Session → ProbeResult) : List Session → Option (List Session)
  | [] =>
    match probe [] with
    | ProbeResult.ok => some []
    | _ => none
  | [s] =>
    match probe [s] with
    | ProbeResult.ok => some [s]
    | _ => none
  | s :: t :: rest =>
    match probe (s :: t :: rest) with
    | ProbeResult.ok => some (s :: t :: rest)
    | ProbeResult.quotaExceeded => evictLoop probe (t :: rest)
    | ProbeResult.otherError => none

/-- The persisted collections of the app: the session store and the prompt
history (`usePersistentState` keys `zarrar-sessions` / `zarrar-promptHistory`). -/
structure AppStore where
  sessions : List Session
  promptHistory : List PromptEntry
  deriving Repr, DecidableEq, Inhabited

/-- The `PromptEntry` values derived from a new session in
`handleGenerationComplete` (`src/index.tsx` lines 741-747): one entry per
scene with a non-empty prompt, id `sessionId-sceneId`, the session's timestamp. -/
def derivedPrompts (ns : Session) : List PromptEntry :=
  (ns.scenes.filter (fun s => s.prompt != "")).map
    (fun s => { id := ns.id ++ "-" ++ toString s.id, text := s.prompt, timestamp := ns.timestamp })

/-- `handleGenerationComplete` (`src/index.tsx` lines 740-775): extend the
prompt history, then run the probe-and-evict loop over
`sessions ++ [newSession]`; commit the surviving candidate on success,
otherwise leave the session store untouched and report a storage error. -/
def handleGenerationComplete (probe : List Session → ProbeResult) (st : AppStore) (ns : Session) :
    AppStore × Option String :=
  let hist := st.promptHistory ++ derivedPrompts ns
  match evictLoop probe (st.sessions ++ [ns]) with
  | some saved => ({ sessions := saved, promptHistory := hist }, none)
  | none =>
    ({ sessions := st.sessions, promptHistory := hist },
     some "Storage is full. Could not save session. Please clear some assets.")

/-- A session whose single scene has a non-empty prompt (test input). -/
def cexSession : Session :=
  { id := "s", timestamp := "t", script := "sc",
    scenes := [{ id := 0, prompt := "p", image := some "img", isLoading := false, error := none }] }

/-- A probe for which every candidate exceeds the quota (test input). -/
def cexProbe : List Session → ProbeResult := fun _ => ProbeResult.quotaExceeded

/-- An empty store (test input). -/
def cexStore : AppStore := { sessions := [], promptHistory := [] }

/-- A probe that always fails with a non-quota error (test input). -/
def w3Probe : List Session → ProbeResult := fun _ => ProbeResult.otherError

/-- A store already holding one session (test input). -/
def w3Store : AppStore := { sessions := [cexSession], promptHistory := [] }

/-- Scene-less sessions used as FIFO-eviction test inputs. -/
def w4a : Session := { id := "a", timestamp := "ta", script := "", scenes := [] }

/-- Second FIFO test session. -/
def w4b : Session := { id := "b", timestamp := "tb", script := "", scenes := [] }

/-- Third FIFO test session. -/
def w4c : Session := { id := "c", timestamp := "tc", script := "", scenes := [] }

/-- A probe that rejects candidates of three or more sessions (test input). -/
def w4Probe : List Session → ProbeResult :=
  fun l => if 3 ≤ l.length then ProbeResult.quotaExceeded else ProbeResult.ok

/-- JavaScript `Map.prototype.has` for a string-keyed map held as an
insertion-ordered association list. -/
def mapHas (m : List (String × String)) (k : String) : Bool :=
  m.any (fun p => p.1 == k)

/-- JavaScript `Map.prototype.set`: replace in place if the key is present,
otherwise append (insertion order). -/
def mapSet (m : List (String × String)) (k v : String) : List (String × String) :=
  if mapHas m k then m.map (fun p => if p.1 == k then (k, v) else p) else m ++ [(k, v)]

/-- JavaScript `Map.prototype.get` (returning `undefined` as `none`). -/
def mapGet (m : List (String × String)) (k : String) : Option String :=
  (m.find? (fun p => p.1 == k)).map (fun p => p.2)

/-- One step of the map construction in `promptImageMap`
(`src/index.tsx` lines 581-585): record a scene's image under its prompt only
if the scene has an image and the prompt is not yet in the map. -/
def recordScene (m : List (String × String)) (sc : Scene) : List (String × String) :=
  match sc.image with
  | some img => if mapHas m sc.prompt then m else mapSet m sc.prompt img
  | none => m

/-- The `promptImageMap` memo of `HistoryView` (`src/index.tsx` lines 578-588):
fold over sessions in store order, and scenes in order within each session. -/
def promptImageMap (sessions : List Session) : List (String × String) :=
  sessions.foldl (fun m s => s.scenes.foldl recordScene m) []

/-- The lookup the history view performs per prompt entry
(`src/index.tsx` line 620): `promptImageMap.get(prompt.text)`. -/
def imageFor (sessions : List Session) (text : String) : Option String :=
  mapGet (promptImageMap sessions) text

/-- Outcome of one image-synthesis call (`ai.models.generateImages`): a usable
image, an empty/blocked result (no image and no thrown error), or a thrown
error carrying an optional message. -/
inductive SynthOutcome where
  | ok (img : String)
  | blocked
  | hardError (msg : Option String)
  deriving Repr, DecidableEq

/-- Whether a synthesis outcome is a thrown (hard) error. -/
def isHard : SynthOutcome → Bool
  | SynthOutcome.hardError _ => true
  | _ => false

/-- Outcome of the optional reference-image analysis call
(`ai.models.generateContent` over the reference image): no reference image
configured, a style description, or a thrown error. -/
inductive RefOutcome where
  | noRef
  | refOk (desc : String)
  | refErr (msg : Option String)
  deriving Repr, DecidableEq

/-- Whether the reference analysis failed. -/
def refFailed : RefOutcome → Bool
  | RefOutcome.refErr _ => true
  | _ => false

/-- The `setScenes(prev => prev.map(s => s.id === sceneId ? … : s))` update
pattern used throughout `src/index.tsx`. -/
def updWhere (sceneId : Nat) (g : Scene → Scene) (l : List Scene) : List Scene :=
  l.map (fun s => if s.id == sceneId then g s else s)

/-- `handleRegenerateScene` (`src/index.tsx` lines 222-277): look up the scene;
bail out if absent or if no API key is configured; mark the scene loading; if a
reference image is configured and its analysis throws, record `Ref image
error.`; otherwise issue one synthesis call: on success replace the scene with
an updated copy holding the new image, on an empty/blocked result record
`Regeneration blocked or failed.`, on a thrown error record `API Error.`. -/
def handleRegenerateScene (hasKey : Bool) (ref : RefOutcome) (synth : SynthOutcome)
    (scenes : List Scene) (sceneId : Nat) : List Scene :=
  match scenes.find? (fun s => s.id == sceneId) with
  | none => scenes
  | some sceneToRegenerate =>
    if hasKey = false then scenes
    else if refFailed ref then
      updWhere sceneId (fun s => { s with isLoading := false, error := some "Ref image error." })
        (updWhere sceneId (fun s => { s with isLoading := true, error := none }) scenes)
    else
      match synth with
      | SynthOutcome.ok img =>
        updWhere sceneId
          (fun _ => { sceneToRegenerate with image := some img, isLoading := false, error := none })
          (updWhere sceneId (fun s => { s with isLoading := true, error := none }) scenes)
      | SynthOutcome.blocked =>
        updWhere sceneId
          (fun s => { s with isLoading := false, error := some "Regeneration blocked or failed." })
          (updWhere sceneId (fun s => { s with isLoading := true, error := none }) scenes)
      | SynthOutcome.hardError _ =>
        updWhere sceneId (fun s => { s with isLoading := false, error := some "API Error." })
          (updWhere sceneId (fun s => { s with isLoading := true, error := none }) scenes)

/-- Two-scene list used as regeneration test input. -/
def w7Scenes : List Scene :=
  [{ id := 0, prompt := "a", image := none, isLoading := false, error := some "API Error." },
   { id := 1, prompt := "b", image := some "imgB", isLoading := false, error := none }]

/-- Resolution of one scene by the bulk loop (`src/index.tsx` line 376):
`{ ...scene, image: imageUrl, isLoading: false, error: finalError }` with
`imageUrl`/`finalError` determined by the call's outcome.  (Unused for a hard
error, which short-circuits the loop instead.) -/
def resolveScene (o : SynthOutcome) (s : Scene) : Scene :=
  match o with
  | SynthOutcome.ok img => { s with image := some img, isLoading := false, error := none }
  | SynthOutcome.blocked =>
    { s with image := none, isLoading := false, error := some "Generation blocked or failed." }
  | SynthOutcome.hardError _ => s

/-- The fail-fast update applied to a still-loading scene on a hard error
(`src/index.tsx` line 371). -/
def failSceneUpd (s : Scene) : Scene :=
  { s with isLoading := false, error := some "API Error." }

/-- Observable result of the bulk synthesis loop: the scenes state, the local
`finalScenes` accumulator, the number of synthesis calls issued, and the hard
failure (if one terminated the loop), carrying the thrown error's message. -/
structure LoopResult where
  scenes : List Scene
  finalScenes : List Scene
  calls : Nat
  hardFailure : Option (Option String)
  deriving Repr, DecidableEq

/-- The `for (const scene of newScenes)` loop of `generateImages`
(`src/index.tsx` lines 348-379).  The environment's response to the n-th
synthesis call is `oracle n`.  On a non-error outcome the resolved scene is
pushed onto `finalScenes` and written into the scenes state by id; on a hard
error every still-loading scene is marked failed with `API Error.` and the
loop stops — issuing no further calls. -/
def synthLoop (oracle : Nat → SynthOutcome) :
    List Scene → List Scene → List Scene → Nat → LoopResult
  | [], state, final, calls => ⟨state, final, calls, none⟩
  | scene :: rest, state, final, calls =>
    match oracle calls with
    | SynthOutcome.hardError e =>
      ⟨state.map (fun s => if s.isLoading then failSceneUpd s else s), final, calls + 1, some e⟩
    | o =>
      synthLoop oracle rest
        (state.map (fun s => if s.id == scene.id then resolveScene o scene else s))
        (final ++ [resolveScene o scene]) (calls + 1)

/-- Scene materialization from prompt texts starting at index `n`
(`src/index.tsx` line 344): all scenes begin loading with no image or error. -/
def mkScenesFrom (n : Nat) : List String → List Scene
  | [] => []
  | p :: rest => { id := n, prompt := p, image := none, isLoading := true, error := none }
      :: mkScenesFrom (n + 1) rest

/-- `promptTexts.map((p, index) => ({ id: index, prompt: p, … }))`. -/
def mkScenes (ps : List String) : List Scene := mkScenesFrom 0 ps

/-- The scenes a run of the loop resolves when no hard error interrupts it,
with call numbering starting at `c`. -/
def resolveSeq (oracle : Nat → SynthOutcome) (c : Nat) : List Scene → List Scene
  | [] => []
  | s :: rest => resolveScene (oracle c) s :: resolveSeq oracle (c + 1) rest

/-- Observable result of one `generateImages` run (`src/index.tsx` lines
280-399): final scenes state, the `finalScenes` accumulator, calls issued, the
global error message (if a hard failure occurred), and the Session handed to
`onGenerationComplete` (if any). -/
structure RunResult where
  scenes : List Scene
  finalScenes : List Scene
  calls : Nat
  globalMessage : Option String
  session : Option Session
  deriving Repr, DecidableEq

/-- `generateImages` after script decomposition produced `promptTexts`
(`src/index.tsx` lines 344-395): materialize the scenes, run the synthesis
loop, and — in the `finally` block — hand a Session (the non-loading
`finalScenes`) to `onGenerationComplete` exactly when some accumulated scene
has an image. -/
def generateImages (oracle : Nat → SynthOutcome) (script sessionId timestamp : String)
    (promptTexts : List String) : RunResult :=
  { scenes := (synthLoop oracle (mkScenes promptTexts) (mkScenes promptTexts) [] 0).scenes
    finalScenes := (synthLoop oracle (mkScenes promptTexts) (mkScenes promptTexts) [] 0).finalScenes
    calls := (synthLoop oracle (mkScenes promptTexts) (mkScenes promptTexts) [] 0).calls
    globalMessage :=
      (synthLoop oracle (mkScenes promptTexts) (mkScenes promptTexts) [] 0).hardFailure.map
        handleApiError
    session :=
      if (synthLoop oracle (mkScenes promptTexts) (mkScenes promptTexts) [] 0).finalScenes.any
          (fun s => s.image.isSome) then
        some { id := sessionId, timestamp := timestamp, script := script,
               scenes := (synthLoop oracle (mkScenes promptTexts) (mkScenes promptTexts) [] 0).finalScenes.filter
                 (fun s => !s.isLoading) }
      else none }

/-- Pairwise-distinct scene ids (holds for materialized scenes, whose ids are
consecutive indices). -/
def DistinctIds (l : List Scene) : Prop :=
  List.Pairwise (fun a b => a.id ≠ b.id) l

/-- A call oracle whose first call succeeds and whose second call throws
(test input). -/
def w1Oracle : Nat → SynthOutcome :=
  fun j => if j = 0 then SynthOutcome.ok "img0" else SynthOutcome.hardError (some "quota exceeded")

/-- C8: error classification is total (defined for every raw failure value,
including a missing message) and is decided by case-insensitive substring
match: "permission denied" / "api key not valid" give `invalidCredential`,
otherwise "quota" gives `quotaExceeded`, otherwise `transient` — and
`handleApiError` reports exactly the message for that classified kind. -/
theorem claim8_classifier_total (msg : Option String) :
    handleApiError msg = userMessageFor (classify msg) msg
    ∧ (classify msg = ErrorKind.invalidCredential ↔
        (strIncludes (strLower (msg.getD "")) "permission denied"
          || strIncludes (strLower (msg.getD "")) "api key not valid") = true)
    ∧ (classify msg = ErrorKind.quotaExceeded ↔
        ((strIncludes (strLower (msg.getD "")) "permission denied"
          || strIncludes (strLower (msg.getD "")) "api key not valid") = false
          ∧ strIncludes (strLower (msg.getD "")) "quota" = true)) := by
  unfold handleApiError classify userMessageFor
  by_cases h1 : (strIncludes (strLower (msg.getD "")) "permission denied"
      || strIncludes (strLower (msg.getD "")) "api key not valid") = true
  · simp [h1]
  · by_cases h2 : strIncludes (strLower (msg.getD "")) "quota" = true
    · simp [h1, h2]
    · simp [h1, h2]

theorem evictLoop_sound (probe : List Session → ProbeResult) :
    ∀ cand saved, evictLoop probe cand = some saved → probe saved = ProbeResult.ok := by
  intro cand
  induction cand with
  | nil =>
    intro saved h
    cases hp : probe [] <;> simp [evictLoop, hp] at h
    simp_all
  | cons s rest ih =>
    cases rest with
    | nil =>
      intro saved h
      cases hp : probe [s] <;> simp [evictLoop, hp] at h
      simp_all
    | cons t rest2 =>
      intro saved h
      cases hp : probe (s :: t :: rest2) <;> simp [evictLoop, hp] at h
      · simp_all
      · exact ih saved h

theorem evictLoop_drop (probe : List Session → ProbeResult) :
    ∀ (k : Nat) (cand : List Session), k < cand.length →
      (∀ j, j < k → probe (cand.drop j) = ProbeResult.quotaExceeded) →
      probe (cand.drop k) = ProbeResult.ok →
      evictLoop probe cand = some (cand.drop k) := by
  intro k
  induction k with
  | zero =>
    intro cand _ _ hok
    rw [List.drop_zero] at hok ⊢
    match cand with
    | [] => simp [evictLoop, hok]
    | [s] => simp [evictLoop, hok]
    | s :: t :: rest => simp [evictLoop, hok]
  | succ k ih =>
    intro cand hk hfail hok
    match cand, hk, hfail, hok with
    | [], hk2, _, _ => exact absurd hk2 (by simp)
    | [s], hk2, _, _ => exact absurd hk2 (by simp)
    | s :: t :: rest, hk2, hfail2, hok2 =>
      have h0 : probe (s :: t :: rest) = ProbeResult.quotaExceeded := by
        have := hfail2 0 (Nat.succ_pos k)
        simpa using this
      have hrec := ih (t :: rest)
        (by simp only [List.length_cons] at hk2 ⊢; omega)
        (fun j hj => by
          have := hfail2 (j + 1) (Nat.succ_lt_succ hj)
          simpa [List.drop_succ_cons] using this)
        (by simpa [List.drop_succ_cons] using hok2)
      simp [evictLoop, h0, hrec, List.drop_succ_cons]

/-- C3: if the probe-and-evict save fails (a storage error is reported), the
persisted session collection equals the collection before the call; and a
successful save only ever commits a candidate that passed the capacity probe. -/
theorem claim3_append_no_partial_write (probe : List Session → ProbeResult)
    (st : AppStore) (ns : Session) :
    ((handleGenerationComplete probe st ns).2.isSome = true →
      (handleGenerationComplete probe st ns).1.sessions = st.sessions)
    ∧ ((handleGenerationComplete probe st ns).2 = none →
      probe (handleGenerationComplete probe st ns).1.sessions = ProbeResult.ok) := by
  unfold handleGenerationComplete
  cases h : evictLoop probe (st.sessions ++ [ns]) with
  | none => simp
  | some saved => simpa using evictLoop_sound probe _ saved h

theorem claim3_append_no_partial_write_witness :
    (handleGenerationComplete w3Probe w3Store cexSession).1.sessions = w3Store.sessions :=
  (claim3_append_no_partial_write w3Probe w3Store cexSession).1 (by decide)

/-- C2 counterexample: with an empty store and a probe that always reports a
quota failure, the append fails (a storage error is surfaced) yet the prompt
history has been extended with an entry derived from the failed session —
refuting "the prompt-history collection is also left unchanged". -/
theorem claim2_counterexample :
    ((handleGenerationComplete cexProbe cexStore cexSession).2.isSome = true)
    ∧ (handleGenerationComplete cexProbe cexStore cexSession).1.promptHistory
        ≠ cexStore.promptHistory := by
  constructor <;> decide

/-- C2 (amended): if the session-store append fails, the session collection is
left unchanged and a storage error is reported, but the prompt-history
collection has already been extended with the `PromptEntry` values derived from
the failed session — the prompt history is written before the save is
attempted, so assembly is not all-or-nothing. -/
theorem claim2_amended_history_extended (probe : List Session → ProbeResult)
    (st : AppStore) (ns : Session)
    (hfail : evictLoop probe (st.sessions ++ [ns]) = none) :
    (handleGenerationComplete probe st ns).1.sessions = st.sessions
    ∧ (handleGenerationComplete probe st ns).1.promptHistory
        = st.promptHistory ++ derivedPrompts ns
    ∧ (handleGenerationComplete probe st ns).2.isSome = true := by
  unfold handleGenerationComplete
  rw [hfail]
  simp

theorem claim2_amended_history_extended_witness :
    (handleGenerationComplete cexProbe w3Store cexSession).1.promptHistory
      = w3Store.promptHistory ++ derivedPrompts cexSession :=
  (claim2_amended_history_extended cexProbe w3Store cexSession (by decide)).2.1

/-- C4: a successful append that required evicting exactly `k` sessions drops
precisely the `k` oldest stored sessions (one at a time from index 0) and
commits the survivors, in order, followed by the new session. -/
theorem claim4_fifo_eviction (probe : List Session → ProbeResult)
    (st : AppStore) (ns : Session) (k : Nat)
    (hk : k ≤ st.sessions.length)
    (hfail : ∀ j, j < k → probe ((st.sessions ++ [ns]).drop j) = ProbeResult.quotaExceeded)
    (hok : probe ((st.sessions ++ [ns]).drop k) = ProbeResult.ok) :
    (handleGenerationComplete probe st ns).1.sessions = st.sessions.drop k ++ [ns] := by
  have hlen : k < (st.sessions ++ [ns]).length := by
    simp only [List.length_append, List.length_cons, List.length_nil]
    omega
  have h := evictLoop_drop probe k (st.sessions ++ [ns]) hlen hfail hok
  unfold handleGenerationComplete
  rw [h]
  simp [List.drop_append_of_le_length hk]

theorem claim4_fifo_eviction_witness :
    (handleGenerationComplete w4Probe { sessions := [w4a, w4b], promptHistory := [] } w4c).1.sessions
      = [w4b, w4c] := by
  have hfail : ∀ j, j < 1 →
      w4Probe ((([w4a, w4b] : List Session) ++ [w4c]).drop j) = ProbeResult.quotaExceeded := by
    intro j hj
    have hj0 : j = 0 := by omega
    subst hj0
    decide
  have h := claim4_fifo_eviction w4Probe { sessions := [w4a, w4b], promptHistory := [] } w4c 1
    (by decide) hfail (by decide)
  simpa using h

theorem mapGet_eq_none_of_not_has (m : List (String × String)) (k : String)
    (h : mapHas m k = false) : mapGet m k = none := by
  unfold mapGet
  rw [List.find?_eq_none.mpr]
  · rfl
  · intro p hp
    unfold mapHas at h
    rw [List.any_eq_false] at h
    exact fun hc => h p hp hc

theorem mapGet_isSome_of_has (m : List (String × String)) (k : String)
    (h : mapHas m k = true) : (mapGet m k).isSome = true := by
  unfold mapHas at h
  rw [List.any_eq_true] at h
  unfold mapGet
  have hs := List.find?_isSome.mpr h
  cases hf : List.find? (fun p => p.1 == k) m with
  | none => rw [hf] at hs; simp at hs
  | some p => simp [hf]

theorem mapGet_append_single (m : List (String × String)) (k v t : String) :
    mapGet (m ++ [(k, v)]) t = (mapGet m t).or (if k == t then some v else none) := by
  unfold mapGet
  rw [List.find?_append]
  by_cases hkt : k == t
  · cases hf : List.find? (fun p => p.1 == t) m <;> simp [hf, List.find?, hkt]
  · simp only [Bool.not_eq_true] at hkt
    cases hf : List.find? (fun p => p.1 == t) m <;> simp [hf, List.find?, hkt]

theorem mapGet_foldl_record (t : String) :
    ∀ (scs : List Scene) (m : List (String × String)),
      mapGet (scs.foldl recordScene m) t =
        (mapGet m t).or
          ((scs.find? (fun sc => sc.prompt == t && sc.image.isSome)).bind (fun sc => sc.image)) := by
  intro scs
  induction scs with
  | nil => intro m; simp
  | cons sc rest ih =>
    intro m
    rw [List.foldl_cons, ih]
    cases himg : sc.image with
    | none =>
      have hstep : recordScene m sc = m := by unfold recordScene; rw [himg]
      rw [hstep, List.find?_cons]
      simp [himg]
    | some img =>
      by_cases hhas : mapHas m sc.prompt = true
      · have hstep : recordScene m sc = m := by unfold recordScene; rw [himg]; simp [hhas]
        rw [hstep, List.find?_cons]
        by_cases hpt : sc.prompt == t
        · have hps : (mapGet m t).isSome = true := by
            have := mapGet_isSome_of_has m sc.prompt hhas
            rwa [show sc.prompt = t from by simpa using hpt] at this
          obtain ⟨w, hw⟩ := Option.isSome_iff_exists.mp hps
          simp [hpt, himg, hw]
        · simp only [Bool.not_eq_true] at hpt
          simp [hpt, himg]
      · have hnot : mapHas m sc.prompt = false := by simpa using hhas
        have hstep : recordScene m sc = m ++ [(sc.prompt, img)] := by
          unfold recordScene mapSet
          rw [himg]
          simp [hnot]
        rw [hstep, mapGet_append_single, List.find?_cons]
        by_cases hpt : sc.prompt == t
        · have hmn : mapGet m t = none := by
            have := mapGet_eq_none_of_not_has m sc.prompt hnot
            rwa [show sc.prompt = t from by simpa using hpt] at this
          simp [hpt, himg, hmn]
        · simp only [Bool.not_eq_true] at hpt
          simp [hpt, himg]

theorem promptImageMap_eq_flat (sessions : List Session) :
    ∀ (m : List (String × String)),
      sessions.foldl (fun m s => s.scenes.foldl recordScene m) m =
        (sessions.flatMap (fun s => s.scenes)).foldl recordScene m := by
  induction sessions with
  | nil => intro m; simp
  | cons s rest ih =>
    intro m
    rw [List.foldl_cons, ih, List.flatMap_cons, List.foldl_append]

/-- C6: `imageFor` is a stable first-write-wins lookup: it returns the image of
the first scene — scanning sessions in store order and, within a session,
scenes in order — whose prompt equals the queried text and whose image is
non-null.  In particular, if sessions `A` then `B` both contain such a scene,
the result is `A`'s image. -/
theorem claim6_first_write_wins (sessions : List Session) (text : String) :
    imageFor sessions text =
      ((sessions.flatMap (fun s => s.scenes)).find?
        (fun sc => sc.prompt == text && sc.image.isSome)).bind (fun sc => sc.image) := by
  unfold imageFor promptImageMap
  rw [promptImageMap_eq_flat, mapGet_foldl_record]
  simp [mapGet]

theorem updWhere_length (sceneId : Nat) (g : Scene → Scene) (l : List Scene) :
    (updWhere sceneId g l).length = l.length := by
  unfold updWhere
  exact List.length_map l _

theorem updWhere_getElem_ne (sceneId : Nat) (g : Scene → Scene) (l : List Scene)
    (i : Nat) (sc : Scene) (h : l[i]? = some sc) (hne : sc.id ≠ sceneId) :
    (updWhere sceneId g l)[i]? = some sc := by
  unfold updWhere
  rw [List.getElem?_map, h]
  simp [hne]

theorem updWhere_getElem_eq (sceneId : Nat) (g : Scene → Scene) (l : List Scene)
    (i : Nat) (sc : Scene) (h : l[i]? = some sc) (heq : sc.id = sceneId) :
    (updWhere sceneId g l)[i]? = some (g sc) := by
  unfold updWhere
  rw [List.getElem?_map, h]
  simp [heq]

theorem regen_shape (hasKey : Bool) (ref : RefOutcome) (synth : SynthOutcome)
    (scenes : List Scene) (sceneId : Nat) :
    handleRegenerateScene hasKey ref synth scenes sceneId = scenes
    ∨ ∃ g2, handleRegenerateScene hasKey ref synth scenes sceneId =
        updWhere sceneId g2
          (updWhere sceneId (fun s => { s with isLoading := true, error := none }) scenes) := by
  unfold handleRegenerateScene
  cases hf : scenes.find? (fun s => s.id == sceneId) with
  | none => exact Or.inl rfl
  | some s0 =>
    dsimp only
    by_cases hk : hasKey = false
    · rw [if_pos hk]
      exact Or.inl rfl
    · rw [if_neg hk]
      by_cases hr : refFailed ref = true
      · rw [if_pos hr]
        exact Or.inr ⟨_, rfl⟩
      · rw [if_neg hr]
        cases synth with
        | ok img => exact Or.inr ⟨_, rfl⟩
        | blocked => exact Or.inr ⟨_, rfl⟩
        | hardError e => exact Or.inr ⟨_, rfl⟩

/-- C7: regenerating one scene — in every combination of API-key presence,
reference-analysis outcome, and synthesis outcome — leaves every other scene
(every position whose scene id differs from the target id) exactly unchanged,
and preserves the number of scenes. -/
theorem claim7_regenerate_frame (hasKey : Bool) (ref : RefOutcome) (synth : SynthOutcome)
    (scenes : List Scene) (sceneId : Nat) :
    (handleRegenerateScene hasKey ref synth scenes sceneId).length = scenes.length
    ∧ (∀ (i : Nat) (sc : Scene), scenes[i]? = some sc → sc.id ≠ sceneId →
        (handleRegenerateScene hasKey ref synth scenes sceneId)[i]? = some sc) := by
  rcases regen_shape hasKey ref synth scenes sceneId with h | ⟨g2, h⟩
  · rw [h]
    exact ⟨rfl, fun i sc hi _ => hi⟩
  · rw [h]
    refine ⟨by rw [updWhere_length, updWhere_length], ?_⟩
    intro i sc hi hne
    exact updWhere_getElem_ne sceneId g2 _ i sc
      (updWhere_getElem_ne sceneId _ scenes i sc hi hne) hne

theorem claim7_regenerate_frame_witness :
    (handleRegenerateScene true RefOutcome.noRef (SynthOutcome.ok "z") w7Scenes 0)[1]? =
      some { id := 1, prompt := "b", image := some "imgB", isLoading := false, error := none } :=
  (claim7_regenerate_frame true RefOutcome.noRef (SynthOutcome.ok "z") w7Scenes 0).2 1
    { id := 1, prompt := "b", image := some "imgB", isLoading := false, error := none }
    (by decide) (by decide)

/-- C10: a regeneration attempt on a scene that fails — reference-analysis
error, blocked/empty synthesis output, or hard synthesis error — preserves the
scene's existing image while recording the corresponding error; only a
successful regeneration replaces the image. -/
theorem claim10_failed_regen_keeps_image (ref : RefOutcome) (synth : SynthOutcome)
    (scenes : List Scene) (sceneId : Nat) (i : Nat) (sc : Scene)
    (hget : scenes[i]? = some sc) (hid : sc.id = sceneId) :
    (refFailed ref = true →
      (handleRegenerateScene true ref synth scenes sceneId)[i]? =
        some { sc with isLoading := false, error := some "Ref image error." })
    ∧ (refFailed ref = false → synth = SynthOutcome.blocked →
      (handleRegenerateScene true ref synth scenes sceneId)[i]? =
        some { sc with isLoading := false, error := some "Regeneration blocked or failed." })
    ∧ (refFailed ref = false → ∀ e, synth = SynthOutcome.hardError e →
      (handleRegenerateScene true ref synth scenes sceneId)[i]? =
        some { sc with isLoading := false, error := some "API Error." })
    ∧ (refFailed ref = false → ∀ im, synth = SynthOutcome.ok im →
      ((handleRegenerateScene true ref synth scenes sceneId)[i]?).map Scene.image =
        some (some im)) := by
  have hmem : sc ∈ scenes := List.getElem?_mem hget
  have hfs : (scenes.find? (fun s => s.id == sceneId)).isSome = true :=
    List.find?_isSome.mpr ⟨sc, hmem, by simp only [hid, beq_self_eq_true]⟩
  obtain ⟨x, hx⟩ := Option.isSome_iff_exists.mp hfs
  have h1 : (updWhere sceneId (fun s => { s with isLoading := true, error := none }) scenes)[i]?
      = some { sc with isLoading := true, error := none } :=
    updWhere_getElem_eq sceneId _ scenes i sc hget hid
  refine ⟨?_, ?_, ?_, ?_⟩
  · intro hr
    unfold handleRegenerateScene
    rw [hx]
    dsimp only
    rw [if_neg (by simp : ¬ (true = false)), if_pos hr]
    rw [updWhere_getElem_eq sceneId _ _ i _ h1 (by simpa using hid)]
  · intro hr hsyn
    subst hsyn
    unfold handleRegenerateScene
    rw [hx]
    dsimp only
    rw [if_neg (by simp : ¬ (true = false)), if_neg (by simp [hr])]
    rw [updWhere_getElem_eq sceneId _ _ i _ h1 (by simpa using hid)]
  · intro hr e hsyn
    subst hsyn
    unfold handleRegenerateScene
    rw [hx]
    dsimp only
    rw [if_neg (by simp : ¬ (true = false)), if_neg (by simp [hr])]
    rw [updWhere_getElem_eq sceneId _ _ i _ h1 (by simpa using hid)]
  · intro hr im hsyn
    subst hsyn
    unfold handleRegenerateScene
    rw [hx]
    dsimp only
    rw [if_neg (by simp : ¬ (true = false)), if_neg (by simp [hr])]
    rw [updWhere_getElem_eq sceneId _ _ i _ h1 (by simpa using hid)]
    rfl

theorem claim10_failed_regen_keeps_image_witness :
    (handleRegenerateScene true RefOutcome.noRef SynthOutcome.blocked
        [{ id := 0, prompt := "a", image := some "old", isLoading := false, error := none }] 0)[0]? =
      some { id := 0, prompt := "a", image := some "old", isLoading := false,
             error := some "Regeneration blocked or failed." } :=
  (claim10_failed_regen_keeps_image RefOutcome.noRef SynthOutcome.blocked
    [{ id := 0, prompt := "a", image := some "old", isLoading := false, error := none }] 0 0
    { id := 0, prompt := "a", image := some "old", isLoading := false, error := none }
    (by decide) rfl).2.1 rfl rfl

theorem resolveScene_id (o : SynthOutcome) (s : Scene) : (resolveScene o s).id = s.id := by
  cases o <;> rfl

theorem resolveScene_isLoading (o : SynthOutcome) (s : Scene) (h : isHard o = false) :
    (resolveScene o s).isLoading = false := by
  cases o <;> first | rfl | simp [isHard] at h

theorem map_upd_frozen (final rem : List Scene)
    (hf : ∀ s ∈ final, s.isLoading = false) (hr : ∀ s ∈ rem, s.isLoading = true) :
    (final ++ rem).map (fun s => if s.isLoading then failSceneUpd s else s)
      = final ++ rem.map failSceneUpd := by
  rw [List.map_append]
  congr 1
  · calc final.map (fun s => if s.isLoading then failSceneUpd s else s)
        = final.map id := List.map_congr_left (fun s hs => by simp [hf s hs])
      _ = final := List.map_id final
  · exact List.map_congr_left (fun s hs => by simp [hr s hs])

theorem map_upd_target (final rest : List Scene) (scene u : Scene) (_hid : u.id = scene.id)
    (hd : DistinctIds (final ++ scene :: rest)) :
    (final ++ scene :: rest).map (fun s => if s.id == scene.id then u else s)
      = final ++ u :: rest := by
  unfold DistinctIds at hd
  rw [List.pairwise_append] at hd
  obtain ⟨_, h2, h3⟩ := hd
  rw [List.pairwise_cons] at h2
  obtain ⟨hrest, _⟩ := h2
  rw [List.map_append]
  congr 1
  · calc final.map (fun s => if s.id == scene.id then u else s)
        = final.map id := List.map_congr_left (fun s hs => by
          have : s.id ≠ scene.id := h3 s hs scene (List.mem_cons_self scene rest)
          simp [this])
      _ = final := List.map_id final
  · rw [List.map_cons]
    simp only [beq_self_eq_true, if_pos]
    congr 1
    calc rest.map (fun s => if s.id == scene.id then u else s)
        = rest.map id := List.map_congr_left (fun s hs => by
          have : s.id ≠ scene.id := fun h => (hrest s hs) h.symm
          simp [this])
      _ = rest := List.map_id rest

theorem distinctIds_shift (final rest : List Scene) (scene u : Scene) (hid : u.id = scene.id)
    (hd : DistinctIds (final ++ scene :: rest)) : DistinctIds ((final ++ [u]) ++ rest) := by
  unfold DistinctIds at hd ⊢
  rw [List.append_assoc, List.singleton_append]
  rw [List.pairwise_append] at hd ⊢
  obtain ⟨h1, h2, h3⟩ := hd
  rw [List.pairwise_cons] at h2 ⊢
  obtain ⟨hrest, h4⟩ := h2
  refine ⟨h1, ⟨fun b hb => hid ▸ hrest b hb, h4⟩, ?_⟩
  intro a ha b hb
  rcases List.mem_cons.mp hb with hb | hb
  · subst hb
    exact hid ▸ h3 a ha scene (List.mem_cons_self scene rest)
  · exact h3 a ha b (List.mem_cons_of_mem scene hb)

theorem synthLoop_step_soft (oracle : Nat → SynthOutcome) (scene : Scene)
    (rest final : List Scene) (c : Nat) (o : SynthOutcome)
    (ho : oracle c = o) (hns : isHard o = false)
    (hd : DistinctIds (final ++ scene :: rest)) :
    synthLoop oracle (scene :: rest) (final ++ scene :: rest) final c =
      synthLoop oracle rest ((final ++ [resolveScene o scene]) ++ rest)
        (final ++ [resolveScene o scene]) (c + 1) := by
  have hupd := map_upd_target final rest scene (resolveScene o scene) (resolveScene_id o scene) hd
  cases o with
  | hardError e => simp [isHard] at hns
  | ok img =>
    simp only [synthLoop, ho]
    rw [hupd, List.append_assoc, List.singleton_append]
  | blocked =>
    simp only [synthLoop, ho]
    rw [hupd, List.append_assoc, List.singleton_append]

theorem synthLoop_step_hard (oracle : Nat → SynthOutcome) (scene : Scene)
    (rest final : List Scene) (c : Nat) (e : Option String)
    (ho : oracle c = SynthOutcome.hardError e)
    (hf : ∀ s ∈ final, s.isLoading = false)
    (hr : ∀ s ∈ scene :: rest, s.isLoading = true) :
    synthLoop oracle (scene :: rest) (final ++ scene :: rest) final c =
      ⟨final ++ (scene :: rest).map failSceneUpd, final, c + 1, some e⟩ := by
  simp only [synthLoop, ho]
  rw [map_upd_frozen final (scene :: rest) hf hr]

theorem synthLoop_hard (oracle : Nat → SynthOutcome) (e : Option String) :
    ∀ (k : Nat) (rem final : List Scene) (c : Nat),
      k < rem.length →
      (∀ j, j < k → isHard (oracle (c + j)) = false) →
      oracle (c + k) = SynthOutcome.hardError e →
      DistinctIds (final ++ rem) →
      (∀ s ∈ rem, s.isLoading = true) →
      (∀ s ∈ final, s.isLoading = false) →
      synthLoop oracle rem (final ++ rem) final c =
        ⟨final ++ (resolveSeq oracle c (rem.take k) ++ (rem.drop k).map failSceneUpd),
         final ++ resolveSeq oracle c (rem.take k), c + k + 1, some e⟩ := by
  intro k
  induction k with
  | zero =>
    intro rem final c hk hnh hhard hd hrem hfin
    cases rem with
    | nil => simp at hk
    | cons scene rest =>
      rw [Nat.add_zero] at hhard
      rw [synthLoop_step_hard oracle scene rest final c e hhard hfin hrem]
      simp [resolveSeq]
  | succ k ih =>
    intro rem final c hk hnh hhard hd hrem hfin
    cases rem with
    | nil => simp at hk
    | cons scene rest =>
      have h0 : isHard (oracle c) = false := by
        have := hnh 0 (Nat.succ_pos k)
        simpa using this
      rw [synthLoop_step_soft oracle scene rest final c (oracle c) rfl h0 hd]
      have hrec := ih rest (final ++ [resolveScene (oracle c) scene]) (c + 1)
        (by simp only [List.length_cons] at hk; omega)
        (fun j hj => by
          have := hnh (j + 1) (Nat.succ_lt_succ hj)
          rwa [show c + (j + 1) = c + 1 + j by omega] at this)
        (by rwa [show c + (k + 1) = c + 1 + k by omega] at hhard)
        (distinctIds_shift final rest scene _ (resolveScene_id _ _) hd)
        (fun s hs => hrem s (List.mem_cons_of_mem scene hs))
        (by
          intro s hs
          rcases List.mem_append.mp hs with h | h
          · exact hfin s h
          · rw [List.mem_singleton.mp h]
            exact resolveScene_isLoading _ _ h0)
      rw [hrec]
      simp only [List.take_succ_cons, List.drop_succ_cons, resolveSeq, LoopResult.mk.injEq]
      refine ⟨by simp [List.append_assoc], by simp [List.append_assoc], by omega, trivial⟩

theorem synthLoop_any (oracle : Nat → SynthOutcome) :
    ∀ (rem final : List Scene) (c : Nat),
      DistinctIds (final ++ rem) →
      (∀ s ∈ rem, s.isLoading = true) →
      (∀ s ∈ rem, s.image = none) →
      (∀ s ∈ final, s.isLoading = false) →
      ((synthLoop oracle rem (final ++ rem) final c).scenes.any (fun s => s.image.isSome))
        = ((synthLoop oracle rem (final ++ rem) final c).finalScenes.any (fun s => s.image.isSome)) := by
  intro rem
  induction rem with
  | nil =>
    intro final c _ _ _ _
    simp [synthLoop]
  | cons scene rest ih =>
    intro final c hd hload himg hfin
    cases ho : oracle c with
    | hardError e =>
      rw [synthLoop_step_hard oracle scene rest final c e ho hfin hload]
      simp only [List.any_append]
      have hz : ((scene :: rest).map failSceneUpd).any (fun s => s.image.isSome) = false := by
        rw [List.any_map, List.any_eq_false]
        intro s hs
        simp [Function.comp, failSceneUpd, himg s hs]
      rw [hz, Bool.or_false]
    | ok img =>
      rw [synthLoop_step_soft oracle scene rest final c _ ho (by simp [isHard]) hd]
      exact ih (final ++ [resolveScene (SynthOutcome.ok img) scene]) (c + 1)
        (distinctIds_shift final rest scene _ (resolveScene_id _ _) hd)
        (fun s hs => hload s (List.mem_cons_of_mem scene hs))
        (fun s hs => himg s (List.mem_cons_of_mem scene hs))
        (by
          intro s hs
          rcases List.mem_append.mp hs with h | h
          · exact hfin s h
          · rw [List.mem_singleton.mp h]
            exact resolveScene_isLoading _ _ (by simp [isHard]))
    | blocked =>
      rw [synthLoop_step_soft oracle scene rest final c _ ho (by simp [isHard]) hd]
      exact ih (final ++ [resolveScene SynthOutcome.blocked scene]) (c + 1)
        (distinctIds_shift final rest scene _ (resolveScene_id _ _) hd)
        (fun s hs => hload s (List.mem_cons_of_mem scene hs))
        (fun s hs => himg s (List.mem_cons_of_mem scene hs))
        (by
          intro s hs
          rcases List.mem_append.mp hs with h | h
          · exact hfin s h
          · rw [List.mem_singleton.mp h]
            exact resolveScene_isLoading _ _ (by simp [isHard]))

theorem mkScenesFrom_length : ∀ (ps : List String) (n : Nat), (mkScenesFrom n ps).length = ps.length := by
  intro ps
  induction ps with
  | nil => intro n; rfl
  | cons p rest ih => intro n; simp [mkScenesFrom, ih]

theorem mem_mkScenesFrom : ∀ (ps : List String) (n : Nat) (s : Scene),
    s ∈ mkScenesFrom n ps → s.isLoading = true ∧ s.image = none ∧ n ≤ s.id := by
  intro ps
  induction ps with
  | nil => intro n s hs; simp [mkScenesFrom] at hs
  | cons p rest ih =>
    intro n s hs
    rcases List.mem_cons.mp hs with h | h
    · subst h; exact ⟨rfl, rfl, Nat.le_refl n⟩
    · obtain ⟨h1, h2, h3⟩ := ih (n + 1) s h
      exact ⟨h1, h2, by omega⟩

theorem mkScenesFrom_distinct : ∀ (ps : List String) (n : Nat), DistinctIds (mkScenesFrom n ps) := by
  intro ps
  induction ps with
  | nil => intro n; exact List.Pairwise.nil
  | cons p rest ih =>
    intro n
    refine List.Pairwise.cons ?_ (ih (n + 1))
    intro b hb
    have := (mem_mkScenesFrom rest (n + 1) b hb).2.2
    simp only
    omega

theorem mkScenesFrom_getElem : ∀ (ps : List String) (n j : Nat),
    (mkScenesFrom n ps)[j]? = (ps[j]?).map
      (fun p => { id := n + j, prompt := p, image := none, isLoading := true, error := none }) := by
  intro ps
  induction ps with
  | nil => intro n j; simp [mkScenesFrom]
  | cons p rest ih =>
    intro n j
    cases j with
    | zero => simp [mkScenesFrom]
    | succ j =>
      simp only [mkScenesFrom, List.getElem?_cons_succ]
      rw [ih (n + 1) j]
      have harith : n + 1 + j = n + (j + 1) := by omega
      rw [harith]

theorem resolveSeq_length (oracle : Nat → SynthOutcome) :
    ∀ (l : List Scene) (c : Nat), (resolveSeq oracle c l).length = l.length := by
  intro l
  induction l with
  | nil => intro c; rfl
  | cons s rest ih => intro c; simp [resolveSeq, ih]

theorem resolveSeq_getElem (oracle : Nat → SynthOutcome) :
    ∀ (l : List Scene) (c j : Nat),
      (resolveSeq oracle c l)[j]? = (l[j]?).map (fun s => resolveScene (oracle (c + j)) s) := by
  intro l
  induction l with
  | nil => intro c j; simp [resolveSeq]
  | cons s rest ih =>
    intro c j
    cases j with
    | zero => simp [resolveSeq]
    | succ j =>
      simp only [resolveSeq, List.getElem?_cons_succ]
      rw [ih (c + 1) j]
      have harith : c + 1 + j = c + (j + 1) := by omega
      rw [harith]

theorem mem_resolveSeq_isLoading (oracle : Nat → SynthOutcome) :
    ∀ (l : List Scene) (c : Nat),
      (∀ j, j < l.length → isHard (oracle (c + j)) = false) →
      ∀ s ∈ resolveSeq oracle c l, s.isLoading = false := by
  intro l
  induction l with
  | nil => intro c _ s hs; simp [resolveSeq] at hs
  | cons t rest ih =>
    intro c hnh s hs
    rcases List.mem_cons.mp hs with h | h
    · rw [h]
      refine resolveScene_isLoading _ _ ?_
      have := hnh 0 (by simp)
      simpa using this
    · refine ih (c + 1) ?_ s h
      intro j hj
      have := hnh (j + 1) (by simp only [List.length_cons]; omega)
      rwa [show c + (j + 1) = c + 1 + j by omega] at this

theorem mem_resolveSeq_id (oracle : Nat → SynthOutcome) :
    ∀ (l : List Scene) (c : Nat) (sc : Scene),
      sc ∈ resolveSeq oracle c l → ∃ s, s ∈ l ∧ sc.id = s.id := by
  intro l
  induction l with
  | nil => intro c sc hs; simp [resolveSeq] at hs
  | cons t rest ih =>
    intro c sc hs
    rcases List.mem_cons.mp hs with h | h
    · exact ⟨t, List.mem_cons_self t rest, by rw [h]; exact resolveScene_id _ _⟩
    · obtain ⟨s, hmem, hid⟩ := ih (c + 1) sc h
      exact ⟨s, List.mem_cons_of_mem t hmem, hid⟩

theorem mem_take_mkScenesFrom : ∀ (ps : List String) (n k : Nat) (s : Scene),
    s ∈ (mkScenesFrom n ps).take k → s.id < n + k := by
  intro ps
  induction ps with
  | nil => intro n k s hs; simp [mkScenesFrom] at hs
  | cons p rest ih =>
    intro n k s hs
    cases k with
    | zero => simp at hs
    | succ k =>
      simp only [mkScenesFrom, List.take_succ_cons] at hs
      rcases List.mem_cons.mp hs with h | h
      · rw [h]; simp only; omega
      · have := ih (n + 1) k s h
        omega

theorem genLoop_eq (oracle : Nat → SynthOutcome) (ps : List String) (k : Nat) (e : Option String)
    (hk : k < ps.length)
    (hnh : ∀ j, j < k → isHard (oracle j) = false)
    (hhard : oracle k = SynthOutcome.hardError e) :
    synthLoop oracle (mkScenes ps) (mkScenes ps) [] 0 =
      ⟨resolveSeq oracle 0 ((mkScenes ps).take k) ++ ((mkScenes ps).drop k).map failSceneUpd,
       resolveSeq oracle 0 ((mkScenes ps).take k), k + 1, some e⟩ := by
  have h := synthLoop_hard oracle e k (mkScenes ps) [] 0
    (by rw [mkScenes, mkScenesFrom_length]; exact hk)
    (fun j hj => by simpa using hnh j hj)
    (by simpa using hhard)
    (by rw [List.nil_append]; exact mkScenesFrom_distinct ps 0)
    (fun s hs => (mem_mkScenesFrom ps 0 s hs).1)
    (by intro s hs; simp at hs)
  rw [List.nil_append] at h
  rw [h]
  simp

/-- C1: if the k-th synthesis call (0-indexed here: calls `0..k-1` succeeded
and call `k` throws), the run fail-fasts: exactly `k+1` calls are issued (none
for any later scene), the classified error surfaces as the global message, the
earlier scenes keep their success state and images, and scene `k` and every
later scene end failed with the same error. -/
theorem claim1_fail_fast (oracle : Nat → SynthOutcome) (imgF : Nat → String) (e : Option String)
    (k : Nat) (ps : List String) (script sid ts : String)
    (hk : k < ps.length)
    (hok : ∀ j, j < k → oracle j = SynthOutcome.ok (imgF j))
    (hhard : oracle k = SynthOutcome.hardError e) :
    (generateImages oracle script sid ts ps).calls = k + 1
    ∧ (generateImages oracle script sid ts ps).globalMessage = some (handleApiError e)
    ∧ (generateImages oracle script sid ts ps).scenes.length = ps.length
    ∧ (∀ j, j < k →
        (generateImages oracle script sid ts ps).scenes[j]? =
          some { id := j, prompt := (ps[j]?).getD "", image := some (imgF j),
                 isLoading := false, error := none })
    ∧ (∀ j, k ≤ j → j < ps.length →
        (generateImages oracle script sid ts ps).scenes[j]? =
          some { id := j, prompt := (ps[j]?).getD "", image := none,
                 isLoading := false, error := some "API Error." }) := by
  have hnh : ∀ j, j < k → isHard (oracle j) = false := fun j hj => by rw [hok j hj]; rfl
  have hloop := genLoop_eq oracle ps k e hk hnh hhard
  have hA : (resolveSeq oracle 0 ((mkScenes ps).take k)).length = k := by
    rw [resolveSeq_length, List.length_take, mkScenes, mkScenesFrom_length]
    omega
  simp only [generateImages]
  rw [hloop]
  refine ⟨rfl, rfl, ?_, ?_, ?_⟩
  · rw [List.length_append, hA, List.length_map, List.length_drop, mkScenes, mkScenesFrom_length]
    omega
  · intro j hj
    have hjp : j < ps.length := Nat.lt_trans hj hk
    simp only [List.getElem?_append, hA]
    rw [if_pos hj, resolveSeq_getElem]
    simp only [Nat.zero_add]
    rw [List.getElem?_take, if_pos hj, mkScenes, mkScenesFrom_getElem]
    simp only [Nat.zero_add, List.getElem?_eq_getElem hjp, Option.getD_some, Option.map_some]
    rw [hok j hj]
    rfl
  · intro j hkj hj
    simp only [List.getElem?_append, hA]
    rw [if_neg (by omega), List.getElem?_map, List.getElem?_drop]
    have harith : k + (j - k) = j := by omega
    rw [harith, mkScenes, mkScenesFrom_getElem]
    simp only [Nat.zero_add, List.getElem?_eq_getElem hj, Option.getD_some, Option.map_some]
    rfl

theorem claim1_fail_fast_witness :
    (generateImages w1Oracle "script" "sid" "ts" ["p0", "p1", "p2"]).calls = 2 :=
  (claim1_fail_fast w1Oracle (fun _ => "img0") (some "quota exceeded") 1 ["p0", "p1", "p2"]
    "script" "sid" "ts" (by decide)
    (fun j hj => by
      have hj0 : j = 0 := by omega
      subst hj0
      rfl)
    rfl).1

/-- C5: a run of the synthesis loop hands a Session to assembly and
persistence if and only if at least one scene ended with an image (succeeded);
a run with zero successful scenes is never persisted, though its scene states
remain in the result. -/
theorem claim5_session_iff_success (oracle : Nat → SynthOutcome) (script sid ts : String)
    (ps : List String) :
    ((generateImages oracle script sid ts ps).session.isSome = true)
      ↔ ((generateImages oracle script sid ts ps).scenes.any (fun s => s.image.isSome) = true) := by
  have hany := synthLoop_any oracle (mkScenes ps) [] 0
    (by rw [List.nil_append]; exact mkScenesFrom_distinct ps 0)
    (fun s hs => (mem_mkScenesFrom ps 0 s hs).1)
    (fun s hs => (mem_mkScenesFrom ps 0 s hs).2.1)
    (by intro s hs; simp at hs)
  rw [List.nil_append] at hany
  cases hc : (synthLoop oracle (mkScenes ps) (mkScenes ps) [] 0).finalScenes.any
      (fun s => s.image.isSome) with
  | false =>
    rw [hc] at hany
    simp [generateImages, hc, hany]
  | true =>
    rw [hc] at hany
    simp [generateImages, hc, hany]

/-- C9: when the run fail-fasts at call `k` (0-indexed) after at least one
success, the Session handed to persistence contains exactly the `k` scenes
resolved before the failure (their ids are all below `k`), while the scenes
state still holds all `N` scenes — the hard-failed scenes are excluded from
the persisted Session. -/
theorem claim9_partial_session (oracle : Nat → SynthOutcome) (e : Option String) (k : Nat)
    (ps : List String) (script sid ts : String)
    (hk : k < ps.length)
    (hnh : ∀ j, j < k → isHard (oracle j) = false)
    (hhard : oracle k = SynthOutcome.hardError e)
    (hsucc : ∃ j, j < k ∧ ∃ im, oracle j = SynthOutcome.ok im) :
    (generateImages oracle script sid ts ps).session =
      some { id := sid, timestamp := ts, script := script,
             scenes := resolveSeq oracle 0 ((mkScenes ps).take k) }
    ∧ (resolveSeq oracle 0 ((mkScenes ps).take k)).length = k
    ∧ (∀ sc ∈ resolveSeq oracle 0 ((mkScenes ps).take k), sc.id < k)
    ∧ (generateImages oracle script sid ts ps).scenes.length = ps.length := by
  have hloop := genLoop_eq oracle ps k e hk hnh hhard
  have hlen : (resolveSeq oracle 0 ((mkScenes ps).take k)).length = k := by
    rw [resolveSeq_length, List.length_take, mkScenes, mkScenesFrom_length]
    omega
  have hnl : ∀ s ∈ resolveSeq oracle 0 ((mkScenes ps).take k), s.isLoading = false := by
    refine mem_resolveSeq_isLoading oracle _ 0 ?_
    intro j hj
    rw [List.length_take, mkScenes, mkScenesFrom_length] at hj
    have hjk : j < k := by omega
    simpa using hnh j hjk
  have hany : (resolveSeq oracle 0 ((mkScenes ps).take k)).any (fun s => s.image.isSome) = true := by
    obtain ⟨j, hj, im, hoj⟩ := hsucc
    rw [List.any_eq_true]
    have hjp : j < ps.length := Nat.lt_trans hj hk
    have hget : (resolveSeq oracle 0 ((mkScenes ps).take k))[j]? =
        some (resolveScene (oracle j)
          { id := j, prompt := ps[j], image := none, isLoading := true, error := none }) := by
      rw [resolveSeq_getElem]
      simp only [Nat.zero_add]
      rw [List.getElem?_take, if_pos hj, mkScenes, mkScenesFrom_getElem]
      simp only [Nat.zero_add, List.getElem?_eq_getElem hjp, Option.map_some]
      rfl
    refine ⟨_, List.getElem?_mem hget, ?_⟩
    rw [hoj]
    rfl
  have hfilter : (resolveSeq oracle 0 ((mkScenes ps).take k)).filter (fun s => !s.isLoading)
      = resolveSeq oracle 0 ((mkScenes ps).take k) := by
    rw [List.filter_eq_self]
    intro s hs
    rw [hnl s hs]
    rfl
  refine ⟨?_, hlen, ?_, ?_⟩
  · simp only [generateImages]
    rw [hloop]
    simp only
    rw [if_pos hany, hfilter]
  · intro sc hsc
    obtain ⟨s, hmem, hid⟩ := mem_resolveSeq_id oracle _ 0 sc hsc
    have := mem_take_mkScenesFrom ps 0 k s hmem
    omega
  · simp only [generateImages]
    rw [hloop]
    simp only
    rw [List.length_append, hlen, List.length_map, List.length_drop, mkScenes,
      mkScenesFrom_length]
    omega

theorem claim9_partial_session_witness :
    (generateImages w1Oracle "s" "i" "t" ["a", "b"]).session =
      some { id := "i", timestamp := "t", script := "s",
             scenes := resolveSeq w1Oracle 0 ((mkScenes ["a", "b"]).take 1) } :=
  (claim9_partial_session w1Oracle (some "quota exceeded") 1 ["a", "b"] "s" "i" "t" (by decide)
    (fun j hj => by
      have hj0 : j = 0 := by omega
      subst hj0
      rfl)
    rfl
    ⟨0, by omega, "img0", rfl⟩).1

end BulkGen
